import Mathlib

/-
Verification of the DSXE DeepTrader online prediction pipeline and offline
dataset reader, shallowly embedded from the Python sources
(deep_trader_server.py, data_generator.py, lob_normalisation.py,
models/deep_trader_nn.py).  Floating-point values are modelled as rationals;
a float division whose divisor is zero yields a non-finite value in numpy,
which the fallible per-element normalisation models as none.
-/

namespace DSXE

/-! ## Normalisation (lob_normalisation.py `normalise_file`, server lines 167/176) -/

/-- Fallible rational division: none exactly when the divisor is zero
(numpy float division by zero produces a non-finite inf/nan value). -/
def divOpt (a b : ℚ) : Option ℚ :=
  if b = 0 then none else some (a / b)

/-- One column step of `normalise_file` (lob_normalisation.py lines 161-166):
`if max_values[i] > min_values[i]: (x - min)/(max - min) else: 0`.
The guard means the division is only performed with a nonzero divisor. -/
def normalise_file_elem (x mn mx : ℚ) : Option ℚ :=
  if mn < mx then divOpt (x - mn) (mx - mn) else some 0

/-- One element of the per-request normalisation performed by the inference
server (deep_trader_server.py line 167):
`(features - min_values[:13]) / (max_values[:13] - min_values[:13])`,
with no guard against a zero divisor. -/
def serverNormalize_elem (x mn mx : ℚ) : Option ℚ :=
  divOpt (x - mn) (mx - mn)

/-- Denormalisation (deep_trader_server.py line 176):
`(scalar * (max_t - min_t)) + min_t`. -/
def denormalize (s mn mx : ℚ) : ℚ :=
  s * (mx - mn) + mn

/-! ## The inference server (deep_trader_server.py `handle_client`) -/

/-- A parsed JSON predict request: every field the handler reads via
`request.get`, each possibly absent.  Non-numeric field values are out of
scope; `type` and `order_type` are strings. -/
structure Request where
  rtype : Option String
  order_type : Option String
  timestamp : Option ℚ
  time_diff : Option ℚ
  trade_type : Option ℚ
  best_bid : Option ℚ
  best_ask : Option ℚ
  micro_price : Option ℚ
  mid_price : Option ℚ
  imbalance : Option ℚ
  spread : Option ℚ
  total_volume : Option ℚ
  p_equilibrium : Option ℚ
  smiths_alpha : Option ℚ
  limit_price : Option ℚ

/-- `order_type == "Ask"` as evaluated throughout `handle_client`. -/
def Request.isAsk (r : Request) : Bool :=
  r.order_type == some "Ask"

/-- The three response shapes built by `handle_client`: a success response
with a price, an error response with a fallback price (the `error` string
field is not modelled), and an error response with no price at all. -/
inductive Response where
  | success (price : ℚ)
  | errorWithPrice (price : ℚ)
  | errorNoPrice (msg : String)
deriving DecidableEq

/-- Whether a response carries a `price` field. -/
def Response.hasPrice : Response → Bool
  | Response.errorNoPrice _ => false
  | _ => true

/-- The error message for a non-predict request:
`f'Unknown request type: {request_type}'`; Python renders a missing
`type` field (None) as the string None. -/
def unknownMsg (t : Option String) : String :=
  "Unknown request type: " ++ (match t with | none => "None" | some s => s)

/-- The 13-element feature vector built from request fields
(deep_trader_server.py lines 131-160), with the defaults of each
`request.get` call: 0 everywhere except `trade_type`
(1 for Ask else 0) and `limit_price` (150.0). -/
def buildFeatures (r : Request) : List ℚ :=
  [r.timestamp.getD 0,
   r.time_diff.getD 0,
   r.trade_type.getD (if r.isAsk then 1 else 0),
   r.best_bid.getD 0,
   r.best_ask.getD 0,
   r.micro_price.getD 0,
   r.mid_price.getD 0,
   r.imbalance.getD 0,
   r.spread.getD 0,
   r.total_volume.getD 0,
   r.p_equilibrium.getD 0,
   r.smiths_alpha.getD 0,
   r.limit_price.getD 150]

/-- The unguarded per-request normalisation of the inference server
(line 167), as the total value vector actually handed to the model backend.
Where a divisor is zero numpy continues with a non-finite value; since the
model backend is an arbitrary function parameter in every theorem below, the
value used for that non-finite entry (here the rational convention x/0 = 0)
is irrelevant; `serverNormalize_elem` records the zero-divisor behaviour. -/
def serverNormalize (features minv maxv : List ℚ) : List ℚ :=
  List.zipWith (fun x p => (x - p.1) / (p.2 - p.1))
    features ((minv.take 13).zip (maxv.take 13))

/-- Python `int(round(x, 0))`: round half to even, then truncate the
(already integral) float. -/
def pyRound (q : ℚ) : ℤ :=
  let f := ⌊q⌋
  let r := q - f
  if r < 1/2 then f
  else if 1/2 < r then f + 1
  else if f % 2 = 0 then f else f + 1

/-- The Ask/Bid price adjustment of `handle_client` (lines 182-191):
Ask: if price below the limit, raise to limit+1, and further to best_ask-1
when the limit is below best_ask-1; Bid symmetric. -/
def adjustPrice (isAsk : Bool) (p limit bb ba : ℚ) : ℚ :=
  if isAsk then
    if p < limit then (if limit < ba - 1 then ba - 1 else limit + 1) else p
  else
    if p > limit then (if limit > bb + 1 then bb + 1 else limit - 1) else p

/-- The sanity check of `handle_client` (lines 193-199): a price outside
[50, 200] is discarded for best_ask-1 (Ask) or best_bid+1 (Bid). -/
def sanityCheck (isAsk : Bool) (p bb ba : ℚ) : ℚ :=
  if p < 50 ∨ p > 200 then (if isAsk then ba - 1 else bb + 1) else p

/-- The rule-based fallback price of the inner except handler
(lines 213-216): Ask: `max(best_bid+1, best_ask-1)`;
Bid: `min(best_ask-1, best_bid+1)`. -/
def fallbackPrice (isAsk : Bool) (bb ba : ℚ) : ℚ :=
  if isAsk then max (bb + 1) (ba - 1) else min (ba - 1) (bb + 1)

/-- One request handled by `handle_client` (deep_trader_server.py
lines 111-235).  The model backend is a function from the normalised input
vector to an optional normalised scalar; none models the predict call
raising.  The result is the response sent, or none when the handler reaches
the outer except clause and closes the connection without sending anything
-- which happens exactly when the inner fallback indexes
`request[best_bid]` or `request[best_ask]` on a request missing that key
(a KeyError that propagates out of the inner except handler). -/
def handle_client (model : List ℚ → Option ℚ) (minv maxv : List ℚ)
    (r : Request) : Option Response :=
  if r.rtype = some "predict" then
    let limit := r.limit_price.getD 150
    let bb := r.best_bid.getD 0
    let ba := r.best_ask.getD 0
    match model (serverNormalize (buildFeatures r) minv maxv) with
    | some out =>
      let denorm := denormalize out (minv.getD 13 0) (maxv.getD 13 0)
      let p0 : ℚ := (pyRound denorm : ℤ)
      some (Response.success (sanityCheck r.isAsk (adjustPrice r.isAsk p0 limit bb ba) bb ba))
    | none =>
      match r.best_bid, r.best_ask with
      | some bb2, some ba2 =>
        some (Response.errorWithPrice (fallbackPrice r.isAsk bb2 ba2))
      | _, _ => none
  else
    some (Response.errorNoPrice (unknownMsg r.rtype))

/-! ## The dataset reader (data_generator.py `DeepTraderDataGenerator`) -/

/-- The dataset reader after its opening scan: `all_data` is the
concatenation of the pickled row batches (each row 13 features followed by
one target), together with the configured batch size, feature count and
window length. -/
structure DeepTraderDataGenerator where
  all_data : List (List ℚ)
  batch_size : ℕ
  n_features : ℕ
  n_steps : ℕ

/-- `self.no_items`: the total number of rows counted by the opening scan. -/
def DeepTraderDataGenerator.no_items (g : DeepTraderDataGenerator) : ℕ :=
  g.all_data.length

/-- `self.seq_items = self.no_items - (self.n_steps - 1)`, computed over
Python integers (so it can be negative). -/
def DeepTraderDataGenerator.seq_items (g : DeepTraderDataGenerator) : ℤ :=
  (g.no_items : ℤ) - ((g.n_steps : ℤ) - 1)

/-- The constructor (data_generator.py lines 30-58): it raises ValueError
(the error the spec taxonomy calls ConfigurationError) exactly when
`seq_items <= 0`. -/
def mkGenerator (all_data : List (List ℚ)) (batch_size n_features n_steps : ℕ) :
    Except String DeepTraderDataGenerator :=
  let g : DeepTraderDataGenerator := ⟨all_data, batch_size, n_features, n_steps⟩
  if g.seq_items ≤ 0 then
    Except.error "Not enough data points for sequence length"
  else
    Except.ok g

/-- The length in minibatches, `self.seq_items // self.batch_size`
(data_generator.py lines 75-77); Python // is floor division, `Int.fdiv`. -/
def DeepTraderDataGenerator.len (g : DeepTraderDataGenerator) : ℤ :=
  Int.fdiv g.seq_items (g.batch_size : ℤ)

/-- One minibatch, `self.__getitem__(index)` (data_generator.py
lines 79-115): `start = index*batch_size`,
`stop = min((index+1)*batch_size, seq_items)`; row i of X holds the first
n_features entries of the n_steps consecutive rows starting at `start+i`;
Y holds row `start+i+n_steps` entry n_features when that row exists, else
the same entry of row `start+i+n_steps-1`. -/
def DeepTraderDataGenerator.getitem (g : DeepTraderDataGenerator) (index : ℕ) :
    List (List (List ℚ)) × List ℚ :=
  let start := index * g.batch_size
  let stop := min ((index + 1) * g.batch_size) g.seq_items.toNat
  let bsize := stop - start
  let x := (List.range bsize).map (fun i =>
    (List.range g.n_steps).map (fun step =>
      (g.all_data.getD (start + i + step) []).take g.n_features))
  let y := (List.range bsize).map (fun i =>
    if start + i + g.n_steps < g.all_data.length then
      (g.all_data.getD (start + i + g.n_steps) []).getD g.n_features 0
    else
      (g.all_data.getD (start + i + g.n_steps - 1) []).getD g.n_features 0)
  (x, y)

/-! ## The LOB-derived feature builder (models/deep_trader_nn.py `create_input`) -/

/-- One entry of the trade tape of an LOB snapshot. -/
structure TapeEntry where
  ttype : String
  t : ℚ
  price : ℚ
deriving DecidableEq

/-- `trades`: the tape read most-recent-first and filtered to entries of
type Trade (deep_trader_nn.py lines 44-45). -/
def tradesOf (tape : List TapeEntry) : List TapeEntry :=
  tape.reverse.filter (fun e => e.ttype == "Trade")

/-- The `delta_t` feature of `create_input` (deep_trader_nn.py
lines 38-59): 0 unless the tape is empty (then the current timestamp) or
the most recent trade happened at the current timestamp (then its time
minus the time of the second most recent trade, 0 when there is none). -/
def delta_t (time : ℚ) (tape : List TapeEntry) : ℚ :=
  if tape.isEmpty then time
  else
    match tradesOf tape with
    | [] => 0
    | t0 :: rest =>
      if time = t0.t then
        t0.t - (match rest with | [] => 0 | t1 :: _ => t1.t)
      else 0

/-! ## Concrete fixtures used by witnesses and counterexamples -/

/-- Minimum normalisation vector of a trivial identity normalisation. -/
def minvals : List ℚ := [0, 0, 0, 0, 0, 0, 0, 0, 0, 0, 0, 0, 0, 0]

/-- Maximum normalisation vector of a trivial identity normalisation. -/
def maxvals : List ℚ := [1, 1, 1, 1, 1, 1, 1, 1, 1, 1, 1, 1, 1, 1]

/-- Ask request with limit_price 100, best_bid 98, best_ask 101. -/
def reqAsk100 : Request :=
  ⟨some "predict", some "Ask", none, none, none, some 98, some 101,
   none, none, none, none, none, none, none, some 100⟩

/-- Ask request with best_bid 98, best_ask 101 and no limit_price field
(so the 150.0 default applies). -/
def reqAskNoLimit : Request :=
  ⟨some "predict", some "Ask", none, none, none, some 98, some 101,
   none, none, none, none, none, none, none, none⟩

/-- Ask request with best_bid 98, best_ask 300 and no limit_price field. -/
def reqAskHighAsk : Request :=
  ⟨some "predict", some "Ask", none, none, none, some 98, some 300,
   none, none, none, none, none, none, none, none⟩

/-- Predict request whose best_bid field is absent. -/
def reqMissingBid : Request :=
  ⟨some "predict", some "Ask", none, none, none, none, some 101,
   none, none, none, none, none, none, none, none⟩

/-- Request whose type field is present but not predict. -/
def reqUnknownType : Request :=
  ⟨some "status", some "Ask", none, none, none, some 98, some 101,
   none, none, none, none, none, none, none, none⟩

/-- A two-entry trade tape: a trade at time 5, then a trade at time 9. -/
def tapeTwoTrades : List TapeEntry :=
  [⟨"Trade", 5, 100⟩, ⟨"Trade", 9, 101⟩]

/-- Three 14-element rows for the dataset-reader witnesses. -/
def rows3 : List (List ℚ) :=
  [[1, 0, 0, 0, 0, 0, 0, 0, 0, 0, 0, 0, 0, 11],
   [2, 0, 0, 0, 0, 0, 0, 0, 0, 0, 0, 0, 0, 12],
   [3, 0, 0, 0, 0, 0, 0, 0, 0, 0, 0, 0, 0, 13]]

/-! ## Helper lemmas -/

/-- pyRound of an integral rational is that integer. -/
theorem pyRound_intCast (n : ℤ) : pyRound (n : ℚ) = n := by
  simp [pyRound]

/-- getD of a map over List.range at an in-range position. -/
theorem getD_range_map {A : Type} (f : ℕ → A) (n i : ℕ) (d : A) (h : i < n) :
    ((List.range n).map f).getD i d = f i := by
  rw [List.getD_eq_getElem?_getD, List.getElem?_map, List.getElem?_range h]
  rfl

/-- getD at an in-range position is an element of the list. -/
theorem getD_mem {A : Type} (l : List A) (i : ℕ) (d : A) (h : i < l.length) :
    l.getD i d ∈ l := by
  rw [List.getD_eq_getElem?_getD, List.getElem?_eq_getElem h]
  exact List.getElem_mem h

/-- Closed form of getitem when the requested batch fits before seq_items. -/
theorem getitem_eq (data : List (List ℚ)) (bs nf ns index : ℕ)
    (hstop : min ((index + 1) * bs) (DeepTraderDataGenerator.mk data bs nf ns).seq_items.toNat =
      (index + 1) * bs) :
    (DeepTraderDataGenerator.mk data bs nf ns).getitem index =
      ((List.range bs).map (fun i =>
        (List.range ns).map (fun step => (data.getD (index * bs + i + step) []).take nf)),
       (List.range bs).map (fun i =>
        if index * bs + i + ns < data.length then
          (data.getD (index * bs + i + ns) []).getD nf 0
        else
          (data.getD (index * bs + i + ns - 1) []).getD nf 0)) := by
  have hbsize : (index + 1) * bs - index * bs = bs := by
    rw [Nat.add_mul, one_mul, Nat.add_sub_cancel_left]
  simp only [DeepTraderDataGenerator.getitem]
  rw [hstop, hbsize]

/-! ## Claim theorems -/

/-- C1 counterexample: a predict request whose best_bid field is absent and
whose model backend raises receives NO response at all (the inner fallback
raises KeyError on `request[best_bid]`, reaching the outer except clause,
which closes the connection silently) — refuting the claim that every
predict request whose processing raises an error still gets a status=error
response with a fallback price. -/
theorem claim_C1_counterexample :
    handle_client (fun _ => none) minvals maxvals reqMissingBid = none := by
  simp [handle_client, reqMissingBid]

/-- C1 (amended): a predict request carrying both best_bid and best_ask
always ends in a response, and when the model backend raises, that response
is status=error with the rule-based fallback price; the always-responds
guarantee holds only when both fields are present. -/
theorem claim_C1_amended (model : List ℚ → Option ℚ) (minv maxv : List ℚ)
    (r : Request) (bb ba : ℚ)
    (ht : r.rtype = some "predict") (hb : r.best_bid = some bb) (ha : r.best_ask = some ba) :
    (handle_client model minv maxv r).isSome = true ∧
    (model (serverNormalize (buildFeatures r) minv maxv) = none →
      handle_client model minv maxv r = some (Response.errorWithPrice (fallbackPrice r.isAsk bb ba))) := by
  constructor
  · simp only [handle_client, ht, if_pos]
    rcases hm : model (serverNormalize (buildFeatures r) minv maxv) with _ | out
    · simp [hb, ha]
    · simp
  · intro hm
    simp only [handle_client, ht, if_pos, hm, hb, ha]

/-- C1 witness: a failing backend on an Ask request with best_bid 98 and
best_ask 101 yields the error response with the rule-based price. -/
theorem claim_C1_witness :
    handle_client (fun _ => none) minvals maxvals reqAskNoLimit =
      some (Response.errorWithPrice (fallbackPrice true 98 101)) :=
  (claim_C1_amended (fun _ => none) minvals maxvals reqAskNoLimit 98 101 rfl rfl rfl).2 rfl

/-- C2: the Ask/Bid price adjustment — Ask below the limit becomes
limit+1, tightened to best_ask-1 when limit < best_ask-1; Bid above the
limit becomes limit-1, tightened to best_bid+1 when limit > best_bid+1;
and the concrete scenario limit 100, best_bid 98, best_ask 101,
candidate 95 ends, through the whole server path, at final price 101. -/
theorem claim_C2 (p limit bb ba : ℚ) :
    (p < limit → limit < ba - 1 → adjustPrice true p limit bb ba = ba - 1) ∧
    (p < limit → ¬ limit < ba - 1 → adjustPrice true p limit bb ba = limit + 1) ∧
    (p > limit → limit > bb + 1 → adjustPrice false p limit bb ba = bb + 1) ∧
    (p > limit → ¬ limit > bb + 1 → adjustPrice false p limit bb ba = limit - 1) ∧
    handle_client (fun _ => some 95) minvals maxvals reqAsk100 = some (Response.success 101) := by
  refine ⟨?_, ?_, ?_, ?_, ?_⟩
  · intro h1 h2; simp [adjustPrice, h1, h2]
  · intro h1 h2; simp [adjustPrice, h1, h2]
  · intro h1 h2; simp [adjustPrice, h1, h2]
  · intro h1 h2; simp [adjustPrice, h1, h2]
  · have hp : pyRound (denormalize 95 (minvals.getD 13 0) (maxvals.getD 13 0)) = 95 := by
      have h : denormalize 95 (minvals.getD 13 0) (maxvals.getD 13 0) = ((95:ℤ):ℚ) := by
        norm_num [denormalize, minvals, maxvals]
      rw [h, pyRound_intCast]
    simp only [handle_client, reqAsk100, Request.isAsk]
    rw [hp]
    norm_num [adjustPrice, sanityCheck]

/-- C2 witness: the Ask clause at candidate 95, limit 100, best_ask 101
gives 101, and the Bid clause at candidate 110, limit 100, best_bid 98
gives 99. -/
theorem claim_C2_witness :
    ((95:ℚ) < 100 ∧ ¬ (100:ℚ) < 101 - 1 ∧ adjustPrice true 95 100 98 101 = 100 + 1) ∧
    ((110:ℚ) > 100 ∧ (100:ℚ) > 98 + 1 ∧ adjustPrice false 110 100 98 101 = 98 + 1) :=
  ⟨⟨by norm_num, by norm_num, (claim_C2 95 100 98 101).2.1 (by norm_num) (by norm_num)⟩,
   ⟨by norm_num, by norm_num, (claim_C2 110 100 98 101).2.2.1 (by norm_num) (by norm_num)⟩⟩

/-- C3: the sanity check substitutes the rule-based price best_ask-1 (Ask)
or best_bid+1 (Bid) exactly when the adjusted price falls outside [50,200],
and the concrete scenario candidate 500, Ask, best_ask 101 ends, through
the whole server path, at fallback price 100. -/
theorem claim_C3 (isAsk : Bool) (p bb ba : ℚ) :
    (p < 50 ∨ p > 200 → sanityCheck isAsk p bb ba = if isAsk then ba - 1 else bb + 1) ∧
    (¬ (p < 50 ∨ p > 200) → sanityCheck isAsk p bb ba = p) ∧
    handle_client (fun _ => some 500) minvals maxvals reqAskNoLimit = some (Response.success 100) := by
  refine ⟨?_, ?_, ?_⟩
  · intro h; simp [sanityCheck, h]
  · intro h; simp [sanityCheck, h]
  · have hp : pyRound (denormalize 500 (minvals.getD 13 0) (maxvals.getD 13 0)) = 500 := by
      have h : denormalize 500 (minvals.getD 13 0) (maxvals.getD 13 0) = ((500:ℤ):ℚ) := by
        norm_num [denormalize, minvals, maxvals]
      rw [h, pyRound_intCast]
    simp only [handle_client, reqAskNoLimit, Request.isAsk]
    rw [hp]
    norm_num [adjustPrice, sanityCheck]

/-- C3 witness: the sanity substitution at the out-of-range price 500. -/
theorem claim_C3_witness :
    ((500:ℚ) < 50 ∨ (500:ℚ) > 200) ∧
    sanityCheck true 500 98 101 = if true then (101:ℚ) - 1 else 98 + 1 :=
  ⟨by norm_num, (claim_C3 true 500 98 101).1 (by norm_num)⟩

/-- C4 counterexample: an Ask request with best_ask 300 whose model
candidate is 500 is answered status=success with price 299, outside the
sanity range [50,200] — the rule-based substitute price is not re-checked
against the range, refuting the claim that every success price lies in
[50,200]. -/
theorem claim_C4_counterexample :
    handle_client (fun _ => some 500) minvals maxvals reqAskHighAsk = some (Response.success 299) ∧
    ¬ ((299:ℚ) ≤ 200) := by
  constructor
  · have hp : pyRound (denormalize 500 (minvals.getD 13 0) (maxvals.getD 13 0)) = 500 := by
      have h : denormalize 500 (minvals.getD 13 0) (maxvals.getD 13 0) = ((500:ℤ):ℚ) := by
        norm_num [denormalize, minvals, maxvals]
      rw [h, pyRound_intCast]
    simp only [handle_client, reqAskHighAsk, Request.isAsk]
    rw [hp]
    norm_num [adjustPrice, sanityCheck]
  · norm_num

/-- C4 (amended): every status=success price lies within [50,200] or is
the rule-based substitute price (best_ask-1 for Ask, best_bid+1 for Bid),
which is itself not re-checked against the range. -/
theorem claim_C4_amended (model : List ℚ → Option ℚ) (minv maxv : List ℚ)
    (r : Request) (p : ℚ)
    (h : handle_client model minv maxv r = some (Response.success p)) :
    (50 ≤ p ∧ p ≤ 200) ∨
    (r.isAsk = true ∧ p = r.best_ask.getD 0 - 1) ∨
    (r.isAsk = false ∧ p = r.best_bid.getD 0 + 1) := by
  by_cases hr : r.rtype = some "predict"
  · simp only [handle_client, hr, if_pos] at h
    rcases hm : model (serverNormalize (buildFeatures r) minv maxv) with _ | out
    · rw [hm] at h
      rcases hb : r.best_bid with _ | bb <;> rcases ha : r.best_ask with _ | ba
      all_goals rw [hb, ha] at h
      all_goals simp at h
    · rw [hm] at h
      simp only [Option.some_inj, Response.success.injEq] at h
      rw [← h]
      set p1 := adjustPrice r.isAsk
        ((pyRound (denormalize out (minv.getD 13 0) (maxv.getD 13 0)) : ℤ) : ℚ)
        (r.limit_price.getD 150) (r.best_bid.getD 0) (r.best_ask.getD 0) with hp1
      by_cases hout : p1 < 50 ∨ p1 > 200
      · rcases hAsk : r.isAsk with _ | _
        · right; right
          simp [sanityCheck, hout, hAsk]
        · right; left
          simp [sanityCheck, hout, hAsk]
      · left
        push_neg at hout
        have hcond : ¬ (p1 < 50 ∨ p1 > 200) := by push_neg; exact hout
        simp only [sanityCheck, if_neg hcond]
        exact hout
  · simp [handle_client, hr] at h

/-- C4 witness: at the counterexample input the success price 299 is the
Ask substitute best_ask - 1. -/
theorem claim_C4_witness :
    ((50:ℚ) ≤ 299 ∧ (299:ℚ) ≤ 200) ∨
    (reqAskHighAsk.isAsk = true ∧ (299:ℚ) = reqAskHighAsk.best_ask.getD 0 - 1) ∨
    (reqAskHighAsk.isAsk = false ∧ (299:ℚ) = reqAskHighAsk.best_bid.getD 0 + 1) :=
  claim_C4_amended (fun _ => some 500) minvals maxvals reqAskHighAsk 299
    (by
      have hp : pyRound (denormalize 500 (minvals.getD 13 0) (maxvals.getD 13 0)) = 500 := by
        have h : denormalize 500 (minvals.getD 13 0) (maxvals.getD 13 0) = ((500:ℤ):ℚ) := by
          norm_num [denormalize, minvals, maxvals]
        rw [h, pyRound_intCast]
      simp only [handle_client, reqAskHighAsk, Request.isAsk]
      rw [hp]
      norm_num [adjustPrice, sanityCheck])

/-- C5: for every index below the length in minibatches, getitem returns X
of shape batch_size x n_steps x 13 and Y of shape batch_size x 1; row i of
X holds the feature vectors (first 13 entries) of the n_steps consecutive
samples starting at sample index*batch_size+i; Y of row i is the target of
the sample immediately after that window, or at the tail of the store the
target of the last available sample; and the batch covers exactly the
contiguous range [index*batch_size, (index+1)*batch_size), so successive
indices cover disjoint, contiguous, increasing ranges with no gaps. -/
theorem claim_C5 (data : List (List ℚ)) (bs ns : ℕ) (g : DeepTraderDataGenerator) (index : ℕ)
    (hg : mkGenerator data bs 13 ns = Except.ok g)
    (hbs : 0 < bs) (hns : 1 ≤ ns)
    (hrow : ∀ row ∈ data, row.length = 14)
    (hidx : (index : ℤ) < g.len) :
    (g.getitem index).1.length = bs ∧
    (g.getitem index).2.length = bs ∧
    (∀ i, i < bs → ((g.getitem index).1.getD i []).length = ns) ∧
    (∀ i st, i < bs → st < ns →
      ((g.getitem index).1.getD i []).getD st [] = (data.getD (index * bs + i + st) []).take 13 ∧
      (((g.getitem index).1.getD i []).getD st []).length = 13) ∧
    (∀ i, i < bs →
      (g.getitem index).2.getD i 0 =
        if index * bs + i + ns < data.length
        then (data.getD (index * bs + i + ns) []).getD 13 0
        else (data.getD (data.length - 1) []).getD 13 0) ∧
    min ((index + 1) * bs) g.seq_items.toNat = (index + 1) * bs := by
  simp only [mkGenerator] at hg
  split at hg
  case isTrue h => exact absurd hg (by simp)
  case isFalse h =>
  obtain rfl : DeepTraderDataGenerator.mk data bs 13 ns = g := by simpa using hg
  have hseq : (DeepTraderDataGenerator.mk data bs 13 ns).seq_items =
      (data.length : ℤ) - ((ns : ℤ) - 1) := rfl
  rw [hseq] at h
  have hSdef : (DeepTraderDataGenerator.mk data bs 13 ns).seq_items.toNat =
      ((data.length : ℤ) - ((ns : ℤ) - 1)).toNat := rfl
  have hS : (DeepTraderDataGenerator.mk data bs 13 ns).seq_items.toNat + ns = data.length + 1 := by
    rw [hSdef]; omega
  have hlen : (DeepTraderDataGenerator.mk data bs 13 ns).len =
      (((DeepTraderDataGenerator.mk data bs 13 ns).seq_items.toNat / bs : ℕ) : ℤ) := by
    show Int.fdiv ((data.length : ℤ) - ((ns : ℤ) - 1)) (bs : ℤ) = _
    rw [show (data.length : ℤ) - ((ns : ℤ) - 1) =
        (((DeepTraderDataGenerator.mk data bs 13 ns).seq_items.toNat : ℕ) : ℤ) by
      rw [hSdef]; omega]
    exact (Int.ofNat_fdiv _ bs).symm
  have hidxN : index < (DeepTraderDataGenerator.mk data bs 13 ns).seq_items.toNat / bs := by
    rw [hlen] at hidx
    exact_mod_cast hidx
  have hkey : (index + 1) * bs ≤ (DeepTraderDataGenerator.mk data bs 13 ns).seq_items.toNat :=
    (Nat.le_div_iff_mul_le hbs).mp hidxN
  have hstop : min ((index + 1) * bs) (DeepTraderDataGenerator.mk data bs 13 ns).seq_items.toNat =
      (index + 1) * bs := min_eq_left hkey
  have hmul : (index + 1) * bs = index * bs + bs := by rw [Nat.add_mul, one_mul]
  rw [getitem_eq data bs 13 ns index hstop]
  refine ⟨by simp, by simp, ?_, ?_, ?_, hstop⟩
  · intro i hi
    rw [getD_range_map _ _ _ _ hi]
    simp
  · intro i st hi hst
    rw [getD_range_map _ _ _ _ hi, getD_range_map _ _ _ _ hst]
    refine ⟨rfl, ?_⟩
    have hin : index * bs + i + st < data.length := by omega
    have hlen14 : (data.getD (index * bs + i + st) []).length = 14 :=
      hrow _ (getD_mem data _ [] hin)
    rw [List.length_take, hlen14]
    rfl
  · intro i hi
    rw [getD_range_map _ _ _ _ hi]
    split_ifs with hcond
    · rfl
    · have heq : index * bs + i + ns - 1 = data.length - 1 := by omega
      rw [heq]

/-- C5 witness: with three 14-element rows, batch size 1 and window length
2, the first minibatch has one row of features and one target. -/
theorem claim_C5_witness :
    ((DeepTraderDataGenerator.mk rows3 1 13 2).getitem 0).1.length = 1 ∧
    ((DeepTraderDataGenerator.mk rows3 1 13 2).getitem 0).2.length = 1 :=
  have h := claim_C5 rows3 1 2 ⟨rows3, 1, 13, 2⟩ 0 rfl (by decide) (by decide)
    (by decide) (by decide)
  ⟨h.1, h.2.1⟩

/-- C6: the dataset reader fails at construction exactly when
total_samples - (n_steps - 1) is nonpositive, and otherwise its length in
minibatches is (total_samples - (n_steps - 1)) // batch_size under Python
floor division. -/
theorem claim_C6 (data : List (List ℚ)) (bs nf ns : ℕ) :
    ((∃ e, mkGenerator data bs nf ns = Except.error e) ↔
      (data.length : ℤ) - ((ns : ℤ) - 1) ≤ 0) ∧
    (∀ g, mkGenerator data bs nf ns = Except.ok g →
      g.len = Int.fdiv ((data.length : ℤ) - ((ns : ℤ) - 1)) (bs : ℤ)) := by
  have hseq : (DeepTraderDataGenerator.mk data bs nf ns).seq_items =
      (data.length : ℤ) - ((ns : ℤ) - 1) := rfl
  constructor
  · constructor
    · rintro ⟨e, he⟩
      simp only [mkGenerator] at he
      split at he
      · rw [← hseq]; assumption
      · exact absurd he (by simp)
    · intro h
      refine ⟨"Not enough data points for sequence length", ?_⟩
      simp only [mkGenerator]
      rw [if_pos (hseq ▸ h)]
  · intro g hg
    simp only [mkGenerator] at hg
    split at hg
    · exact absurd hg (by simp)
    · obtain rfl : DeepTraderDataGenerator.mk data bs nf ns = g := by
        simpa using hg
      rfl

/-- C6 witness: three rows, window length 2, batch size 1 give length 2. -/
theorem claim_C6_witness :
    DeepTraderDataGenerator.len ⟨rows3, 1, 13, 2⟩ =
      Int.fdiv ((rows3.length : ℤ) - ((2 : ℤ) - 1)) (1 : ℤ) :=
  (claim_C6 rows3 1 13 2).2 ⟨rows3, 1, 13, 2⟩ rfl

/-- C7: normalising then denormalising with the same min/max returns the
original value for any value within [min, max] (exactly over ℚ). -/
theorem claim_C7 (v mn mx : ℚ) (h1 : mn ≤ v) (h2 : v ≤ mx) :
    Option.map (fun s => denormalize s mn mx) (normalise_file_elem v mn mx) = some v := by
  by_cases hlt : mn < mx
  · have hz : mx - mn ≠ 0 := sub_ne_zero.mpr (ne_of_gt hlt)
    simp [normalise_file_elem, divOpt, hlt, hz, denormalize]
  · have heq : mn = mx := le_antisymm (h1.trans h2) (not_lt.mp hlt)
    have hv : v = mn := le_antisymm (heq ▸ h2) h1
    simp [normalise_file_elem, divOpt, hlt, denormalize, hv]

/-- C7 witness: the round trip at value 5 within [0, 10]. -/
theorem claim_C7_witness :
    (0:ℚ) ≤ 5 ∧ (5:ℚ) ≤ 10 ∧
    Option.map (fun s => denormalize s 0 10) (normalise_file_elem 5 0 10) = some 5 :=
  ⟨by norm_num, by norm_num, claim_C7 5 0 10 (by norm_num) (by norm_num)⟩

/-- C8 counterexample: at max = min = 3 and value 5 the per-request
normalisation performed by the inference server divides by zero (none)
instead of yielding 0, while the guarded normalise_file step yields 0 —
refuting the claim that the zero-divisor guard also covers the per-request
normalisation of the server. -/
theorem claim_C8_counterexample :
    serverNormalize_elem 5 3 3 = none ∧ serverNormalize_elem 5 3 3 ≠ some 0 ∧
    normalise_file_elem 5 3 3 = some 0 := by
  refine ⟨?_, ?_, ?_⟩ <;> simp [serverNormalize_elem, normalise_file_elem, divOpt]

/-- C8 (amended): normalise_file computes elementwise (v-min)/(max-min)
when max > min and yields 0 otherwise (in particular where max = min), so
normalise_file never divides by zero; the per-request normalisation of the
inference server is unguarded and divides by zero where max = min. -/
theorem claim_C8_amended (x mn mx : ℚ) :
    (normalise_file_elem x mn mx).isSome = true ∧
    (mx = mn → normalise_file_elem x mn mx = some 0) ∧
    (mn < mx → normalise_file_elem x mn mx = some ((x - mn) / (mx - mn))) ∧
    (mx = mn → serverNormalize_elem x mn mx = none) := by
  refine ⟨?_, ?_, ?_, ?_⟩
  · by_cases hlt : mn < mx
    · have hz : mx - mn ≠ 0 := sub_ne_zero.mpr (ne_of_gt hlt)
      simp [normalise_file_elem, divOpt, hlt, hz]
    · simp [normalise_file_elem, hlt]
  · intro h; simp [normalise_file_elem, h]
  · intro h
    have hz : mx - mn ≠ 0 := sub_ne_zero.mpr (ne_of_gt h)
    simp [normalise_file_elem, divOpt, h, hz]
  · intro h; simp [serverNormalize_elem, divOpt, h]

/-- C8 witness: the amended statement evaluated at value 5, min 3, max 3. -/
theorem claim_C8_witness :
    ((3:ℚ) = 3 ∧ normalise_file_elem 5 3 3 = some 0) ∧
    ((3:ℚ) = 3 ∧ serverNormalize_elem 5 3 3 = none) :=
  ⟨⟨rfl, (claim_C8_amended 5 3 3).2.1 rfl⟩, ⟨rfl, (claim_C8_amended 5 3 3).2.2.2 rfl⟩⟩

/-- C9: delta_t is the gap between the two most recent trades when the
most recent trade happened at the current timestamp; the current timestamp
when the tape is empty; and 0 otherwise (tape nonempty with no trades, or
most recent trade not at the current timestamp). -/
theorem claim_C9 (time : ℚ) (tape : List TapeEntry) :
    (tape = [] → delta_t time tape = time) ∧
    (∀ t0 t1 rest, tradesOf tape = t0 :: t1 :: rest → time = t0.t →
      delta_t time tape = t0.t - t1.t) ∧
    (tape ≠ [] → tradesOf tape = [] → delta_t time tape = 0) ∧
    (∀ t0 rest, tradesOf tape = t0 :: rest → time ≠ t0.t → delta_t time tape = 0) := by
  refine ⟨?_, ?_, ?_, ?_⟩
  · intro h; simp [delta_t, h]
  · intro t0 t1 rest htr htime
    have hne : tape ≠ [] := by
      intro h; rw [h] at htr; simp [tradesOf] at htr
    simp [delta_t, List.isEmpty_iff, hne, htr, htime]
  · intro hne htr
    simp [delta_t, List.isEmpty_iff, hne, htr]
  · intro t0 rest htr htime
    have hne : tape ≠ [] := by
      intro h; rw [h] at htr; simp [tradesOf] at htr
    cases rest with
    | nil => simp [delta_t, List.isEmpty_iff, hne, htr, htime]
    | cons t1 rest2 => simp [delta_t, List.isEmpty_iff, hne, htr, htime]

/-- C9 witness: on a tape with trades at times 5 then 9, at current time 9
the feature is the gap 9 - 5. -/
theorem claim_C9_witness :
    tradesOf tapeTwoTrades = ⟨"Trade", 9, 101⟩ :: ⟨"Trade", 5, 100⟩ :: [] ∧
    delta_t 9 tapeTwoTrades = 9 - 5 :=
  ⟨rfl, (claim_C9 9 tapeTwoTrades).2.1 ⟨"Trade", 9, 101⟩ ⟨"Trade", 5, 100⟩ [] rfl rfl⟩

/-- C10: a request whose type field is present but not predict is answered
status=error with an error message and no price field, and that is the
only reply shape sent without a price. -/
theorem claim_C10 (model : List ℚ → Option ℚ) (minv maxv : List ℚ) (r : Request) :
    (∀ t, r.rtype = some t → t ≠ "predict" →
      handle_client model minv maxv r = some (Response.errorNoPrice (unknownMsg r.rtype))) ∧
    (∀ resp, handle_client model minv maxv r = some resp → resp.hasPrice = false →
      resp = Response.errorNoPrice (unknownMsg r.rtype)) := by
  constructor
  · intro t ht hne
    simp [handle_client, ht, hne]
  · intro resp hresp hp
    by_cases hr : r.rtype = some "predict"
    · simp only [handle_client, hr, if_pos] at hresp
      rcases hm : model (serverNormalize (buildFeatures r) minv maxv) with _ | out
      · rw [hm] at hresp
        rcases hb : r.best_bid with _ | bb <;> rcases ha : r.best_ask with _ | ba
        all_goals rw [hb, ha] at hresp
        all_goals simp at hresp
        rw [← hresp] at hp
        simp [Response.hasPrice] at hp
      · rw [hm] at hresp
        simp at hresp
        rw [← hresp] at hp
        simp [Response.hasPrice] at hp
    · simp only [handle_client, hr, if_neg, if_false] at hresp
      simp at hresp
      exact hresp.symm

/-- C10 witness: a request of type status gets the no-price error reply. -/
theorem claim_C10_witness :
    handle_client (fun _ => some 95) minvals maxvals reqUnknownType =
      some (Response.errorNoPrice (unknownMsg (some "status"))) :=
  (claim_C10 (fun _ => some 95) minvals maxvals reqUnknownType).1 "status" rfl (by decide)

end DSXE
